import Mathlib

/-
Verification of the pywiki transaction client (Woop-Chain/pywiki).

Shallow embedding of:
  * pywiki/transaction.py  -- read-only query facade and the
    submission-and-confirmation polling loops
  * pywiki/numbers.py      -- ATTO/WOC unit conversion over Python
    decimal.Decimal arithmetic (default context: 28 significant digits,
    ROUND_HALF_EVEN)
  * pywiki/exceptions.py   -- error taxonomy

External collaborators that are not part of this repository's sources
(pywiki/rpc/request.py and pywiki/constants.py) are modelled as
parameters (an RPC oracle) and named constants, following the spec's
boundary description.
-/

/-- Decoded JSON values, as produced by the external `rpc_request`
collaborator after JSON decoding.  Python dicts are modelled as
association lists; keys of a decoded JSON object are unique. -/
inductive Json where
  | null : Json
  | bool (b : Bool) : Json
  | num (n : Int) : Json
  | str (s : String) : Json
  | arr (xs : List Json) : Json
  | obj (fields : List (String × Json)) : Json

/-- Errors surfaced by the modelled code paths.  `invalidRPCReply` and
`txConfirmationTimedout` mirror pywiki/exceptions.py.  `typeFault`
stands for a Python-level TypeError/AttributeError that the source
would raise when a polled record's blockHash field is not a string or a
non-null poll result is not a dict; no claim exercises these paths. -/
inductive PywikiError where
  | invalidRPCReply (method : String) (endpoint : String) : PywikiError
  | txConfirmationTimedout (msg : String) : PywikiError
  | typeFault : PywikiError
deriving DecidableEq

/-- Modelled from the spec: the well-known public endpoint constant of
the missing module pywiki/constants.py (`DEFAULT_ENDPOINT`).  Its value
never influences any claim. -/
def DEFAULT_ENDPOINT : String := "https://api.woopchain.com/"

/-- Modelled from the spec: the fixed default per-request timeout in
seconds of the missing module pywiki/constants.py (`DEFAULT_TIMEOUT`).
Its value never influences any claim. -/
def DEFAULT_TIMEOUT : ℚ := 30

/-- One invocation of the external `rpc_request` collaborator:
method name, positional params, endpoint, timeout, yielding the decoded
response object. -/
def RpcCall : Type := String → List Json → String → ℚ → List (String × Json)

/-- The environment's RPC behaviour over the run of a polling loop: the
k-th network call made by the client is answered by `rpc k`.  This
models that successive polls of the node may observe different chain
states. -/
def RpcEnv : Type := ℕ → RpcCall

/-- get_transaction_by_hash (transaction.py): return the `result` field
of the decoded response; a missing `result` key (Python KeyError) is
re-raised as `InvalidRPCReplyError(method, endpoint)`. -/
def get_transaction_by_hash (rpc : RpcCall) (tx_hash : Json)
    (endpoint : String) (timeout : ℚ) : Except PywikiError Json :=
  let method := "wikiv2_getTransactionByHash"
  match List.lookup "result" (rpc method [tx_hash] endpoint timeout) with
  | some v => Except.ok v
  | none => Except.error (PywikiError.invalidRPCReply method endpoint)

/-- get_pending_transactions (transaction.py): same facade pattern,
with no positional params. -/
def get_pending_transactions (rpc : RpcCall)
    (endpoint : String) (timeout : ℚ) : Except PywikiError Json :=
  let method := "wikiv2_pendingTransactions"
  match List.lookup "result" (rpc method [] endpoint timeout) with
  | some v => Except.ok v
  | none => Except.error (PywikiError.invalidRPCReply method endpoint)

/-- send_raw_transaction (transaction.py). -/
def send_raw_transaction (rpc : RpcCall) (signed_tx : Json)
    (endpoint : String) (timeout : ℚ) : Except PywikiError Json :=
  let method := "wikiv2_sendRawTransaction"
  match List.lookup "result" (rpc method [signed_tx] endpoint timeout) with
  | some v => Except.ok v
  | none => Except.error (PywikiError.invalidRPCReply method endpoint)

/-- get_staking_transaction_by_hash (transaction.py). -/
def get_staking_transaction_by_hash (rpc : RpcCall) (tx_hash : Json)
    (endpoint : String) (timeout : ℚ) : Except PywikiError Json :=
  let method := "wikiv2_getStakingTransactionByHash"
  match List.lookup "result" (rpc method [tx_hash] endpoint timeout) with
  | some v => Except.ok v
  | none => Except.error (PywikiError.invalidRPCReply method endpoint)

/-- send_raw_staking_transaction (transaction.py). -/
def send_raw_staking_transaction (rpc : RpcCall) (raw_tx : Json)
    (endpoint : String) (timeout : ℚ) : Except PywikiError Json :=
  let method := "wikiv2_sendRawStakingTransaction"
  match List.lookup "result" (rpc method [raw_tx] endpoint timeout) with
  | some v => Except.ok v
  | none => Except.error (PywikiError.invalidRPCReply method endpoint)

/-- The source computes `"".join(set(list(block_hash[2:])))` and
compares it with `"0"`.  The joined string equals `"0"` exactly when
the set of characters is `{'0'}`, i.e. when the deduplicated character
list is `['0']`; the (unspecified) iteration order of a Python set is
irrelevant to that comparison.  We model the set of characters of a
string by `List.dedup` of its characters. -/
def unique_chars (s : String) : List Char := s.data.dedup

/-- The polling loop shared by send_and_confirm_raw_transaction
(transaction.py lines 496-506).  `times i` is the value returned by the
i-th call of `time.time()` (reading 0 is `start_time`; the k-th while
condition reads `times (k+1)`).  `rpc (k+1)` answers the k-th poll.
The per-poll `time.sleep(random.uniform(0.2, 0.5))` affects the model
only through the `times` stream.  `fuel` bounds the number of
iterations we unfold; `none` means the bound was reached while the real
loop would still be polling.  Internal RPC calls pass `DEFAULT_TIMEOUT`
because the source omits the timeout argument (lines 494 and 497). -/
def confirmTxLoopAux (rpc : RpcEnv) (times : ℕ → ℚ) (tx_hash : Json)
    (endpoint : String) (timeout start_time : ℚ) :
    ℕ → ℕ → Option (Except PywikiError Json)
  | _, 0 => none
  | k, fuel + 1 =>
    if times (k + 1) - start_time ≤ timeout then
      match get_transaction_by_hash (rpc (k + 1)) tx_hash endpoint DEFAULT_TIMEOUT with
      | Except.error e => some (Except.error e)
      | Except.ok Json.null =>
        confirmTxLoopAux rpc times tx_hash endpoint timeout start_time (k + 1) fuel
      | Except.ok (Json.obj tx_response) =>
        match (List.lookup "blockHash" tx_response).getD (Json.str "0x00") with
        | Json.str block_hash =>
          if unique_chars (String.drop block_hash 2) ≠ [ '0' ] then
            some (Except.ok (Json.obj tx_response))
          else
            confirmTxLoopAux rpc times tx_hash endpoint timeout start_time (k + 1) fuel
        | _ => some (Except.error PywikiError.typeFault)
      | Except.ok _ => some (Except.error PywikiError.typeFault)
    else
      some (Except.error
        (PywikiError.txConfirmationTimedout "Could not confirm transaction on-chain."))

/-- send_and_confirm_raw_transaction (transaction.py lines 460-506). -/
def send_and_confirm_raw_transaction (rpc : RpcEnv) (times : ℕ → ℚ)
    (fuel : ℕ) (signed_tx : Json) (endpoint : String) (timeout : ℚ) :
    Option (Except PywikiError Json) :=
  match send_raw_transaction (rpc 0) signed_tx endpoint DEFAULT_TIMEOUT with
  | Except.error e => some (Except.error e)
  | Except.ok tx_hash =>
    confirmTxLoopAux rpc times tx_hash endpoint timeout (times 0) 0 fuel

/-- The polling loop of send_and_confirm_raw_staking_transaction
(transaction.py lines 894-908), duplicated in the source with the
staking lookup in place of the plain one. -/
def confirmStakingLoopAux (rpc : RpcEnv) (times : ℕ → ℚ) (tx_hash : Json)
    (endpoint : String) (timeout start_time : ℚ) :
    ℕ → ℕ → Option (Except PywikiError Json)
  | _, 0 => none
  | k, fuel + 1 =>
    if times (k + 1) - start_time ≤ timeout then
      match get_staking_transaction_by_hash (rpc (k + 1)) tx_hash endpoint DEFAULT_TIMEOUT with
      | Except.error e => some (Except.error e)
      | Except.ok Json.null =>
        confirmStakingLoopAux rpc times tx_hash endpoint timeout start_time (k + 1) fuel
      | Except.ok (Json.obj tx_response) =>
        match (List.lookup "blockHash" tx_response).getD (Json.str "0x00") with
        | Json.str block_hash =>
          if unique_chars (String.drop block_hash 2) ≠ [ '0' ] then
            some (Except.ok (Json.obj tx_response))
          else
            confirmStakingLoopAux rpc times tx_hash endpoint timeout start_time (k + 1) fuel
        | _ => some (Except.error PywikiError.typeFault)
      | Except.ok _ => some (Except.error PywikiError.typeFault)
    else
      some (Except.error
        (PywikiError.txConfirmationTimedout "Could not confirm transaction on-chain."))

/-- send_and_confirm_raw_staking_transaction (transaction.py lines
859-908). -/
def send_and_confirm_raw_staking_transaction (rpc : RpcEnv) (times : ℕ → ℚ)
    (fuel : ℕ) (signed_tx : Json) (endpoint : String) (timeout : ℚ) :
    Option (Except PywikiError Json) :=
  match send_raw_staking_transaction (rpc 0) signed_tx endpoint DEFAULT_TIMEOUT with
  | Except.error e => some (Except.error e)
  | Except.ok tx_hash =>
    confirmStakingLoopAux rpc times tx_hash endpoint timeout (times 0) 0 fuel

/-- A poll response on which the loop keeps polling: either a null
result, or a record whose blockHash field (default `"0x00"` when
absent) consists, after dropping the first two characters, of the
single repeated character '0'. -/
def pendingPoll (look : Except PywikiError Json) : Prop :=
  look = Except.ok Json.null ∨
    ∃ fields s, look = Except.ok (Json.obj fields) ∧
      (List.lookup "blockHash" fields).getD (Json.str "0x00") = Json.str s ∧
      unique_chars (String.drop s 2) = [ '0' ]

/-
Unit conversion (pywiki/numbers.py) over Python decimal.Decimal.

Python's decimal module is used with its default context: 28 significant
digits of precision, rounding ROUND_HALF_EVEN.  The default context's
exponent limits (Emin = -999999, Emax = 999999) are far beyond every
magnitude reachable through the modelled operations, so the overflow,
underflow and subnormal branches of the library are omitted.
-/

/-- Default decimal context precision (decimal.DefaultContext.prec). -/
def PREC : Nat := 28

/-- A decimal.Decimal value: sign (true = negative), coefficient and
exponent, mirroring the sign/int/exp triple of _pydecimal.  Value is
(-1)^sign * coeff * 10^exp.  NaN and infinities are never produced by
the modelled operations and are omitted. -/
structure PyDec where
  sign : Bool
  coeff : Nat
  exp : Int
deriving DecidableEq

/-- Numeric value of a decimal. -/
def PyDec.toRat (x : PyDec) : ℚ :=
  (if x.sign then (-1 : ℚ) else 1) * (x.coeff : ℚ) * (10 : ℚ) ^ x.exp

/-- Number of decimal digits of n, i.e. Python len(str(n)) for n >= 0
(so 0 has one digit).  The fuel argument only bounds the recursion
depth; 64 is enough for every number below 10^64, far above every
coefficient reachable in the claims. -/
def numDigitsAux : Nat → Nat → Nat
  | 0, _ => 1
  | f + 1, n => if n < 10 then 1 else numDigitsAux f (n / 10) + 1

/-- Decimal digit count with fixed fuel 64. -/
def numDigits (n : Nat) : Nat := numDigitsAux 64 n

/-- Round c / 10^d to an integer with ROUND_HALF_EVEN, as the rounding
step of _pydecimal._fix does when dropping the low d digits of a
coefficient. -/
def roundDropHalfEven (c d : Nat) : Nat :=
  let q := c / 10 ^ d
  let r := c % 10 ^ d
  if 10 ^ d < 2 * r then q + 1
  else if 2 * r < 10 ^ d then q
  else if q % 2 = 0 then q else q + 1

/-- The rounding step _pydecimal.Decimal._fix restricted to the default context: if the
coefficient has more than PREC digits, drop the excess low digits with
half-even rounding; when the rounding carry lengthens the coefficient
past PREC digits again (999...9 -> 1000...0), drop one more trailing
digit and bump the exponent. -/
def fixDec (x : PyDec) : PyDec :=
  if numDigits x.coeff ≤ PREC then x
  else
    let d := numDigits x.coeff - PREC
    let c2 := roundDropHalfEven x.coeff d
    if numDigits c2 ≤ PREC then ⟨x.sign, c2, x.exp + d⟩
    else ⟨x.sign, c2 / 10, x.exp + d + 1⟩

/-- The exact-quotient cleanup loop of _pydecimal.__truediv__:
`while exp < ideal_exp and coeff % 10 == 0: coeff //= 10; exp += 1`.
The fuel is the distance ideal_exp - exp, so the loop stops exactly
when the exponent reaches the ideal exponent or the coefficient stops
being divisible by 10. -/
def stripToIdeal : Nat → Nat → Int → Nat × Int
  | 0, c, e => (c, e)
  | f + 1, c, e => if c % 10 = 0 then stripToIdeal f (c / 10) (e + 1) else (c, e)

/-- Division _pydecimal.Decimal.__truediv__ under the default context.  The
divisor is never zero in the modelled code (the conversion unit is
10^18); on a zero divisor Python would raise DivisionByZero, which this
total function does not model. -/
def divideDec (x y : PyDec) : PyDec :=
  let sign := xor x.sign y.sign
  if x.coeff = 0 then
    fixDec ⟨sign, 0, x.exp - y.exp⟩
  else
    let shift : Int := (numDigits y.coeff : Int) - (numDigits x.coeff : Int) + PREC + 1
    let exp := x.exp - y.exp - shift
    let c :=
      if 0 ≤ shift then x.coeff * 10 ^ shift.toNat / y.coeff
      else x.coeff / (y.coeff * 10 ^ (-shift).toNat)
    let r :=
      if 0 ≤ shift then x.coeff * 10 ^ shift.toNat % y.coeff
      else x.coeff % (y.coeff * 10 ^ (-shift).toNat)
    if r ≠ 0 then
      fixDec ⟨sign, if c % 5 = 0 then c + 1 else c, exp⟩
    else
      let ideal := x.exp - y.exp
      let ce := stripToIdeal (ideal - exp).toNat c exp
      fixDec ⟨sign, ce.1, ce.2⟩

/-- Multiplication _pydecimal.Decimal.__mul__ under the default context (the special
shortcuts for a zero or '1' operand in the library yield the same
result as the general path). -/
def mulDec (x y : PyDec) : PyDec :=
  fixDec ⟨xor x.sign y.sign, x.coeff * y.coeff, x.exp + y.exp⟩

/-- Decimal(int): exact. -/
def decOfInt (n : Int) : PyDec := ⟨decide (n < 0), n.natAbs, 0⟩

/-
Binary floating point.  A Python float is an IEEE binary64 value; every
finite binary64 value is a dyadic rational, so floats are modelled by
their exact rational values, produced by correct rounding
(round-to-nearest, ties-to-even).  All float magnitudes appearing in
the claims lie well inside the normal range, so subnormals, overflow
and signed zeros are omitted.
-/

/-- Binary length of n (`n.bit_length()` in Python): 0 for 0, otherwise
the position of the highest set bit plus one.  Fuel 4096 covers every
number below 2^4096. -/
def bitLenAux : Nat → Nat → Nat
  | 0, _ => 0
  | f + 1, n => if n = 0 then 0 else bitLenAux f (n / 2) + 1

/-- Binary digit count with fixed fuel 4096. -/
def bitLen (n : Nat) : Nat := bitLenAux 4096 n

/-- Floor of the base-2 logarithm of a positive rational: the binary
lengths of numerator and denominator locate it within one, and a single
comparison settles it. -/
def ilog2 (q : ℚ) : Int :=
  let e0 : Int := (bitLen q.num.natAbs : Int) - (bitLen q.den : Int)
  if (2 : ℚ) ^ e0 ≤ q then e0 else e0 - 1

/-- Floor of the base-10 logarithm of a positive rational, analogously
via decimal digit counts. -/
def ilog10 (q : ℚ) : Int :=
  let e0 : Int := (numDigits q.num.natAbs : Int) - (numDigits q.den : Int)
  if (10 : ℚ) ^ e0 ≤ q then e0 else e0 - 1

/-- Round a rational to an integer, ties to even. -/
def halfEvenInt (x : ℚ) : Int :=
  let f := ⌊x⌋
  let r := x - (f : ℚ)
  if r < 1 / 2 then f
  else if 1 / 2 < r then f + 1
  else if f % 2 = 0 then f else f + 1

/-- Correctly round a positive rational to binary64: scale into
[2^52, 2^53), round the integer significand half-even, and scale
back. -/
def floatRoundPos (q : ℚ) : ℚ :=
  let e : Int := ilog2 q - 52
  ((halfEvenInt (q / (2 : ℚ) ^ e) : ℚ)) * (2 : ℚ) ^ e

/-- Correctly round a rational to the nearest binary64 value
(round-to-nearest, ties-to-even); the exact value of a Python float
literal or arithmetic result. -/
def floatRound (q : ℚ) : ℚ :=
  if q = 0 then 0
  else if q < 0 then -(floatRoundPos (-q)) else floatRoundPos q

/-- int() applied to a float: truncation toward zero. -/
def truncInt (q : ℚ) : Int := if 0 ≤ q then ⌊q⌋ else -⌊-q⌋

/-- Decimal(float): the exact binary expansion, per
decimal.Decimal.from_float: with |f| = n / 2^k in lowest terms, the
result is coefficient n * 5^k with exponent -k. -/
def decOfFloat (q : ℚ) : PyDec :=
  let k := bitLen q.den - 1
  ⟨decide (q < 0), q.num.natAbs * 5 ^ k, -(k : Int)⟩

/-- Round a positive rational to n significant decimal digits
(half-even), returning coefficient and exponent; a carry to 10^n is
renormalised to n digits. -/
def roundSigDec (q : ℚ) (n : Nat) : Nat × Int :=
  let ex : Int := ilog10 q - (n - 1 : Nat)
  let c := (halfEvenInt (q / (10 : ℚ) ^ ex)).toNat
  if c = 10 ^ n then (10 ^ (n - 1), ex + 1) else (c, ex)

/-- repr of a positive float value, as digits-and-exponent: the
shortest decimal (fewest significant digits, correctly rounded) that
rounds back to exactly this binary64 value; 17 digits always suffice
for binary64. -/
def floatReprFrom (q : ℚ) : Nat → Nat → Nat × Int
  | _, 0 => roundSigDec q 17
  | n, f + 1 =>
    let cand := roundSigDec q n
    if floatRound ((cand.1 : ℚ) * (10 : ℚ) ^ cand.2) = q then cand
    else floatReprFrom q (n + 1) f

/-- Decimal(str(f)) for a float f: Python renders the float through its
shortest round-tripping decimal representation and the Decimal
constructor stores those digits exactly.  (Textual variations such as
'100.0' versus '1e+02' only pad the stored coefficient with trailing
zeros and never change the numeric value; we store the unpadded
digits.) -/
def decOfFloatRepr (q : ℚ) : PyDec :=
  if q = 0 then ⟨false, 0, -1⟩
  else if q < 0 then
    let ce := floatReprFrom (-q) 1 17
    ⟨true, ce.1, ce.2⟩
  else
    let ce := floatReprFrom q 1 17
    ⟨false, ce.1, ce.2⟩

/-- numbers.py input values: str inputs are not exercised by any claim
and are omitted; a float is carried as its exact binary64 value. -/
inductive PyNum where
  | int (n : Int) : PyNum
  | float (q : ℚ) : PyNum
  | dec (d : PyDec) : PyNum

/-- numbers.py `_conversion_unit = Decimal(1e18)`: the Decimal built
from the float literal 1e18 (which is exactly 10^18 in binary64). -/
def conversion_unit : PyDec := decOfFloat (floatRound ((10 : ℚ) ^ (18 : ℕ)))

/-- convert_atto_to_woc (numbers.py): float input is truncated to int
first; then Decimal(atto) / _conversion_unit. -/
def convert_atto_to_woc (atto : PyNum) : PyDec :=
  match atto with
  | PyNum.float q => divideDec (decOfInt (truncInt q)) conversion_unit
  | PyNum.int n => divideDec (decOfInt n) conversion_unit
  | PyNum.dec d => divideDec d conversion_unit

/-- convert_woc_to_atto (numbers.py): float input is rendered through
str() first; then Decimal(woc) * _conversion_unit. -/
def convert_woc_to_atto (woc : PyNum) : PyDec :=
  match woc with
  | PyNum.float q => mulDec (decOfFloatRepr q) conversion_unit
  | PyNum.int n => mulDec (decOfInt n) conversion_unit
  | PyNum.dec d => mulDec d conversion_unit

/-- pywiki/exceptions.py InvalidValidatorError.errors. -/
def invalidValidatorErrors : List (Nat × String) :=
  [(1, "Invalid WOC address"),
   (2, "Field not initialized"),
   (3, "Invalid field input"),
   (4, "Error checking blockchain"),
   (5, "Unable to import validator information from blockchain")]

/-- pywiki/exceptions.py InvalidValidatorError.__str__:
f"[Errno {self.code}] {self.errors[self.code]}: {self.msg}".  The
dictionary lookup raises KeyError outside the five codes, modelled by
Option. -/
def invalidValidatorStr (code : Nat) (msg : String) : Option String :=
  (List.lookup code invalidValidatorErrors).map
    (fun d => "[Errno " ++ toString code ++ "] " ++ d ++ ": " ++ msg)

/-- The renaming that sends the two staking RPC method names to their
plain counterparts inside error payloads: the staking
submit-and-confirm function differs from the plain one exactly in which
lookup/submission method its errors mention. -/
def renameStakingMethods : PywikiError → PywikiError
  | PywikiError.invalidRPCReply m e =>
    PywikiError.invalidRPCReply
      (if m = "wikiv2_getStakingTransactionByHash" then "wikiv2_getTransactionByHash"
       else if m = "wikiv2_sendRawStakingTransaction" then "wikiv2_sendRawTransaction"
       else m) e
  | e => e

/-- Concrete clock for witnesses: every time.time() reading is 0. -/
def timesZero : ℕ → ℚ := fun _ => 0

/-- Concrete clock for witnesses: the i-th time.time() reading is i. -/
def timesLinear : ℕ → ℚ := fun i => (i : ℚ)

/-- Concrete RPC environment: every response lacks a result key. -/
def rpcNoResult : RpcEnv := fun _ _ _ _ _ => [("jsonrpc", Json.str "2.0")]

/-- Concrete RPC environment: every response has a null result. -/
def rpcAllNull : RpcEnv := fun _ _ _ _ _ => [("result", Json.null)]

/-- Concrete RPC environment: submission yields a hash, every poll a
record confirmed by block hash 0x01. -/
def rpcHashThenConfirmed : RpcEnv := fun k _ _ _ _ =>
  if k = 0 then [("result", Json.str "0xhash")]
  else [("result", Json.obj [("blockHash", Json.str "0x01")])]

/-- Concrete RPC environment: submission yields a hash, every poll a
record with the bare block hash "0x". -/
def rpcHashThenBare : RpcEnv := fun k _ _ _ _ =>
  if k = 0 then [("result", Json.str "0xhash")]
  else [("result", Json.obj [("blockHash", Json.str "0x")])]

/-- Concrete RPC environment: submission yields a hash, every poll a
record with the all-zero default-shaped block hash "0x00". -/
def rpcHashThenPending : RpcEnv := fun k _ _ _ _ =>
  if k = 0 then [("result", Json.str "0xhash")]
  else [("result", Json.obj [("blockHash", Json.str "0x00")])]

/-- Concrete RPC environment that misbehaves on every timeout other
than the module default, to witness that the confirmation loops only
ever issue requests with the default per-request timeout. -/
def rpcOffDefault : RpcEnv := fun _ _ _ _ t =>
  if t = DEFAULT_TIMEOUT then [("result", Json.null)] else [("bogus", Json.null)]

/-
Lemmas.  First: the decimal digit count.
-/

set_option maxRecDepth 40000

lemma numDigitsAux_pos (f n : Nat) : 1 ≤ numDigitsAux f n := by
  cases f with
  | zero => simp [numDigitsAux]
  | succ f => simp only [numDigitsAux]; split <;> omega

lemma numDigitsAux_le (f : Nat) :
    ∀ n k, 1 ≤ k → k ≤ f → n < 10 ^ k → numDigitsAux f n ≤ k := by
  induction f with
  | zero => intro n k h1 h2 _; omega
  | succ f ih =>
    intro n k h1 h2 h3
    simp only [numDigitsAux]
    split
    · exact h1
    · rename_i hn
      push_neg at hn
      have hk2 : 2 ≤ k := by
        by_contra hk
        push_neg at hk
        have hk1 : k = 1 := by omega
        rw [hk1, pow_one] at h3
        omega
      have hdiv : n / 10 < 10 ^ (k - 1) := by
        rw [Nat.div_lt_iff_lt_mul (by norm_num)]
        calc n < 10 ^ k := h3
        _ = 10 ^ (k - 1) * 10 := by
              rw [← pow_succ]
              congr 1
              omega
      have := ih (n / 10) (k - 1) (by omega) (by omega) hdiv
      omega

lemma numDigitsAux_upper (f : Nat) : ∀ n, n < 10 ^ f → n < 10 ^ numDigitsAux f n := by
  induction f with
  | zero =>
    intro n h
    simp only [pow_zero, Nat.lt_one_iff] at h
    simp [numDigitsAux, h]
  | succ f ih =>
    intro n h
    simp only [numDigitsAux]
    split
    · simpa [pow_one]
    · rename_i hn
      push_neg at hn
      have hdiv : n / 10 < 10 ^ f := by
        rw [Nat.div_lt_iff_lt_mul (by norm_num)]
        calc n < 10 ^ (f + 1) := h
        _ = 10 ^ f * 10 := by rw [pow_succ]
      have hrec := ih (n / 10) hdiv
      have hmod := Nat.div_add_mod n 10
      have hlt : n % 10 < 10 := Nat.mod_lt n (by norm_num)
      calc n < (n / 10 + 1) * 10 := by omega
      _ ≤ 10 ^ numDigitsAux f (n / 10) * 10 := by
            exact Nat.mul_le_mul_right 10 (by omega)
      _ = 10 ^ (numDigitsAux f (n / 10) + 1) := by rw [pow_succ]

lemma numDigitsAux_lower (f : Nat) :
    ∀ n, 1 ≤ n → n < 10 ^ f → 10 ^ (numDigitsAux f n - 1) ≤ n := by
  induction f with
  | zero =>
    intro n h1 h2
    simp only [pow_zero] at h2
    omega
  | succ f ih =>
    intro n h1 h2
    simp only [numDigitsAux]
    split
    · simpa
    · rename_i hn
      push_neg at hn
      have hdiv : n / 10 < 10 ^ f := by
        rw [Nat.div_lt_iff_lt_mul (by norm_num)]
        calc n < 10 ^ (f + 1) := h2
        _ = 10 ^ f * 10 := by rw [pow_succ]
      have h1' : 1 ≤ n / 10 := by
        rw [Nat.le_div_iff_mul_le (by norm_num)]
        omega
      have hrec := ih (n / 10) h1' hdiv
      have hpos := numDigitsAux_pos f (n / 10)
      calc 10 ^ (numDigitsAux f (n / 10) + 1 - 1)
          = 10 ^ (numDigitsAux f (n / 10) - 1) * 10 := by
            rw [← pow_succ]
            congr 1
            omega
      _ ≤ (n / 10) * 10 := Nat.mul_le_mul_right 10 hrec
      _ ≤ n := Nat.div_mul_le_self n 10

lemma numDigits_pos (n : Nat) : 1 ≤ numDigits n := numDigitsAux_pos 64 n

lemma numDigits_le_of_lt {n k : Nat} (h1 : 1 ≤ k) (h2 : k ≤ 64) (h3 : n < 10 ^ k) :
    numDigits n ≤ k := numDigitsAux_le 64 n k h1 h2 h3

lemma lt_pow_numDigits {n : Nat} (h : n < 10 ^ 64) : n < 10 ^ numDigits n :=
  numDigitsAux_upper 64 n h

lemma pow_numDigits_le {n : Nat} (h1 : 1 ≤ n) (h : n < 10 ^ 64) :
    10 ^ (numDigits n - 1) ≤ n := numDigitsAux_lower 64 n h1 h

lemma stripToIdeal_spec (f : Nat) : ∀ c e, ∃ j, j ≤ f ∧ 10 ^ j ∣ c ∧
    stripToIdeal f c e = (c / 10 ^ j, e + j) ∧ (j = f ∨ ¬ (10 ∣ c / 10 ^ j)) := by
  induction f with
  | zero =>
    intro c e
    exact ⟨0, Nat.le_refl 0, one_dvd c, by simp [stripToIdeal], Or.inl rfl⟩
  | succ f ih =>
    intro c e
    by_cases h : c % 10 = 0
    · obtain ⟨j, hj, hdvd, heq, hlast⟩ := ih (c / 10) (e + 1)
      have h10 : 10 ∣ c := Nat.dvd_of_mod_eq_zero h
      have hdd : c / 10 / 10 ^ j = c / 10 ^ (j + 1) := by
        rw [Nat.div_div_eq_div_mul, ← pow_succ']
      have hdvd' : 10 ^ (j + 1) ∣ c := by
        obtain ⟨c', hc'⟩ := h10
        obtain ⟨c'', hc''⟩ := hdvd
        rw [hc', Nat.mul_div_cancel_left c' (by norm_num)] at hc''
        rw [hc', hc'', pow_succ']
        exact mul_dvd_mul_left 10 ⟨c'', rfl⟩
      refine ⟨j + 1, by omega, hdvd', ?_, ?_⟩
      · simp only [stripToIdeal]
        rw [if_pos h, heq, hdd]
        congr 1
        push_cast
        ring
      · rcases hlast with hl | hl
        · exact Or.inl (by omega)
        · exact Or.inr (by rw [← hdd]; exact hl)
    · refine ⟨0, by omega, one_dvd _, by simp [stripToIdeal, h], Or.inr ?_⟩
      simp only [pow_zero, Nat.div_one]
      intro hdvd
      exact h (Nat.mod_eq_zero_of_dvd hdvd)

lemma stripToIdeal_val (f : Nat) (c : Nat) (e : Int) :
    ((stripToIdeal f c e).1 : ℚ) * (10 : ℚ) ^ (stripToIdeal f c e).2
      = (c : ℚ) * (10 : ℚ) ^ e := by
  obtain ⟨j, -, hdvd, heq, -⟩ := stripToIdeal_spec f c e
  obtain ⟨t, ht⟩ := hdvd
  rw [heq]
  simp only [ht, Nat.mul_div_cancel_left t (by positivity : 0 < 10 ^ j)]
  rw [zpow_add₀ (by norm_num : (10 : ℚ) ≠ 0)]
  push_cast
  rw [zpow_natCast]
  ring

lemma roundDropHalfEven_of_dvd {c d : Nat} (h : 10 ^ d ∣ c) :
    roundDropHalfEven c d = c / 10 ^ d := by
  have hr : c % 10 ^ d = 0 := Nat.mod_eq_zero_of_dvd h
  simp only [roundDropHalfEven, hr, mul_zero]
  rw [if_neg (by omega), if_pos (pow_pos (by norm_num : (0 : ℕ) < 10) d)]

lemma fixDec_of_le (x : PyDec) (h : numDigits x.coeff ≤ PREC) : fixDec x = x := by
  simp [fixDec, h]

lemma fixDec_toRat_of_dvd (s : Bool) (c : Nat) (e : Int) (hlt : c < 10 ^ 46)
    (hdvd : 10 ^ 18 ∣ c) : (fixDec ⟨s, c, e⟩).toRat = (PyDec.mk s c e).toRat := by
  by_cases h : numDigits c ≤ PREC
  · rw [fixDec_of_le ⟨s, c, e⟩ h]
  · push_neg at h
    have hub : c < 10 ^ numDigits c :=
      lt_pow_numDigits (lt_trans hlt (by norm_num))
    have hD : numDigits c ≤ 46 :=
      numDigits_le_of_lt (by norm_num) (by norm_num) hlt
    obtain ⟨D, hDeq⟩ : ∃ D, numDigits c = D := ⟨_, rfl⟩
    rw [hDeq] at h hub hD
    have hd18 : D - PREC ≤ 18 := by
      simp only [PREC] at h ⊢
      omega
    have hdd : 10 ^ (D - PREC) ∣ c := dvd_trans (pow_dvd_pow 10 hd18) hdvd
    have hq' : c / 10 ^ (D - PREC) * 10 ^ (D - PREC) = c := Nat.div_mul_cancel hdd
    have hround : roundDropHalfEven c (D - PREC) = c / 10 ^ (D - PREC) :=
      roundDropHalfEven_of_dvd hdd
    have hqlt : c / 10 ^ (D - PREC) < 10 ^ PREC := by
      have hsplit : 10 ^ D = 10 ^ PREC * 10 ^ (D - PREC) := by
        rw [← pow_add]
        congr 1
        simp only [PREC] at h ⊢
        omega
      have hm : c / 10 ^ (D - PREC) * 10 ^ (D - PREC) < 10 ^ PREC * 10 ^ (D - PREC) := by
        rw [hq', ← hsplit]
        exact hub
      exact Nat.lt_of_mul_lt_mul_right hm
    have hnq : numDigits (c / 10 ^ (D - PREC)) ≤ PREC :=
      numDigits_le_of_lt (by norm_num [PREC]) (by norm_num [PREC]) hqlt
    simp only [fixDec, hDeq]
    rw [if_neg (by omega), hround, if_pos hnq]
    simp only [PyDec.toRat]
    rw [zpow_add₀ (by norm_num : (10 : ℚ) ≠ 0), zpow_natCast]
    have hcast : ((c / 10 ^ (D - PREC) : ℕ) : ℚ) * (10 : ℚ) ^ (D - PREC : ℕ) = (c : ℚ) := by
      have hc := congrArg (Nat.cast (R := ℚ)) hq'
      push_cast at hc
      exact hc
    rw [← hcast]
    ring

unseal Rat.mul Rat.add Rat.sub Rat.inv in
lemma conversion_unit_eq : conversion_unit = ⟨false, 10 ^ 18, 0⟩ := by decide

lemma numDigits_ten_pow_18 : numDigits (10 ^ 18) = 19 := by decide

lemma convert_atto_spec (a : Nat) (h1 : 1 ≤ a) (h2 : a < 10 ^ 28) :
    ∃ (c' : Nat) (e' : Int), convert_atto_to_woc (PyNum.int (a : Int)) = ⟨false, c', e'⟩ ∧
      c' < 10 ^ 28 ∧ (c' : ℚ) * (10 : ℚ) ^ e' = (a : ℚ) * (10 : ℚ) ^ (-18 : ℤ) := by
  have hL1 : 1 ≤ numDigits a := numDigits_pos a
  have hL28 : numDigits a ≤ 28 :=
    numDigits_le_of_lt (by norm_num) (by norm_num) h2
  obtain ⟨L, hLeq⟩ : ∃ L, numDigits a = L := ⟨_, rfl⟩
  rw [hLeq] at hL1 hL28
  simp only [convert_atto_to_woc, decOfInt, conversion_unit_eq]
  have hsign : decide ((a : Int) < 0) = false := by
    simp
  have habs : (a : Int).natAbs = a := Int.natAbs_ofNat a
  rw [hsign, habs]
  simp only [divideDec]
  rw [if_neg (by omega : ¬ a = 0)]
  simp only [numDigits_ten_pow_18, hLeq, PREC, Nat.cast_ofNat]
  have hshift_nonneg : (0 : Int) ≤ 19 - (L : Int) + 28 + 1 := by omega
  simp only [if_pos hshift_nonneg]
  have htoNat : ((19 : Int) - (L : Int) + 28 + 1).toNat = 48 - L := by omega
  rw [htoNat]
  have hpowsplit : (48 : ℕ) - L = (30 - L) + 18 := by omega
  have hdiv : a * 10 ^ (48 - L) / 10 ^ 18 = a * 10 ^ (30 - L) := by
    rw [hpowsplit, pow_add, ← mul_assoc]
    exact Nat.mul_div_cancel _ (pow_pos (by norm_num) 18)
  have hmod : a * 10 ^ (48 - L) % 10 ^ 18 = 0 := by
    rw [hpowsplit, pow_add, ← mul_assoc]
    exact Nat.mul_mod_left _ _
  rw [hdiv, hmod]
  rw [if_neg (show ¬ ((0 : ℕ) ≠ 0) by simp)]
  have hideal : ((0 : Int) - 0 - ((0 : Int) - 0 - (19 - (L : Int) + 28 + 1))).toNat
      = 48 - L := by omega
  have hexp : (0 : Int) - 0 - (19 - (L : Int) + 28 + 1) = (L : Int) - 48 := by omega
  rw [hideal, hexp]
  obtain ⟨j, hj, hjdvd, hjeq, hjlast⟩ :=
    stripToIdeal_spec (48 - L) (a * 10 ^ (30 - L)) ((L : Int) - 48)
  have hc'lt : a * 10 ^ (30 - L) / 10 ^ j < 10 ^ 28 := by
    rcases hjlast with hl | hl
    · -- j = 48 - L: the quotient is a / 10^18 < 10^10
      subst hl
      have hbound : a * 10 ^ (30 - L) < 10 ^ 10 * 10 ^ (48 - L) := by
        have : (10 : ℕ) ^ 10 * 10 ^ (48 - L) = 10 ^ 28 * 10 ^ (30 - L) := by
          rw [← pow_add, ← pow_add]
          congr 1
          omega
        rw [this]
        exact (mul_lt_mul_right (pow_pos (by norm_num : (0 : ℕ) < 10) (30 - L))).mpr h2
      have hql : a * 10 ^ (30 - L) / 10 ^ (48 - L) * 10 ^ (48 - L) = a * 10 ^ (30 - L) :=
        Nat.div_mul_cancel hjdvd
      have hm : a * 10 ^ (30 - L) / 10 ^ (48 - L) * 10 ^ (48 - L)
          < 10 ^ 10 * 10 ^ (48 - L) := by
        rw [hql]
        exact hbound
      have h10 : a * 10 ^ (30 - L) / 10 ^ (48 - L) < 10 ^ 10 :=
        Nat.lt_of_mul_lt_mul_right hm
      calc a * 10 ^ (30 - L) / 10 ^ (48 - L) < 10 ^ 10 := h10
      _ ≤ 10 ^ 28 := Nat.pow_le_pow_right (by norm_num) (by norm_num)
    · -- the stripped coefficient is no longer divisible by 10, hence j >= 30 - L
      have hjge : 30 - L ≤ j := by
        by_contra hjlt
        push_neg at hjlt
        apply hl
        have hsp : (30 : ℕ) - L = ((30 - L) - j) + j := by omega
        have hfac : a * 10 ^ (30 - L) = a * 10 ^ ((30 - L) - j) * 10 ^ j := by
          conv_lhs => rw [hsp]
          rw [pow_add, mul_assoc]
        rw [hfac, Nat.mul_div_cancel _ (pow_pos (by norm_num) j)]
        have hsp2 : (30 : ℕ) - L - j = ((30 - L) - j - 1) + 1 := by omega
        rw [hsp2, pow_succ, ← mul_assoc]
        exact ⟨a * 10 ^ ((30 - L) - j - 1), by ring⟩
      have hle : a * 10 ^ (30 - L) ≤ a * 10 ^ j :=
        Nat.mul_le_mul_left a (Nat.pow_le_pow_right (by norm_num) hjge)
      have hql : a * 10 ^ (30 - L) / 10 ^ j * 10 ^ j = a * 10 ^ (30 - L) :=
        Nat.div_mul_cancel hjdvd
      have : a * 10 ^ (30 - L) / 10 ^ j * 10 ^ j ≤ a * 10 ^ j := by
        rw [hql]
        exact hle
      have hlea : a * 10 ^ (30 - L) / 10 ^ j ≤ a :=
        Nat.le_of_mul_le_mul_right this (pow_pos (by norm_num) j)
      omega
  refine ⟨a * 10 ^ (30 - L) / 10 ^ j, (L : Int) - 48 + (j : Int), ?_, hc'lt, ?_⟩
  · rw [hjeq]
    show fixDec ⟨false, a * 10 ^ (30 - L) / 10 ^ j, (L : Int) - 48 + (j : Int)⟩
        = ⟨false, a * 10 ^ (30 - L) / 10 ^ j, (L : Int) - 48 + (j : Int)⟩
    refine fixDec_of_le _ ?_
    show numDigits (a * 10 ^ (30 - L) / 10 ^ j) ≤ PREC
    simp only [PREC]
    exact numDigits_le_of_lt (by norm_num) (by norm_num) hc'lt
  · -- value preservation
    obtain ⟨t, ht⟩ := hjdvd
    have hqt : a * 10 ^ (30 - L) / 10 ^ j = t := by
      rw [ht]
      exact Nat.mul_div_cancel_left t (pow_pos (by norm_num) j)
    rw [hqt]
    rw [zpow_add₀ (by norm_num : (10 : ℚ) ≠ 0), zpow_natCast]
    have hcast : (t : ℚ) * (10 : ℚ) ^ (j : ℕ) = (a : ℚ) * (10 : ℚ) ^ ((30 : ℕ) - L) := by
      have hc := congrArg (Nat.cast (R := ℚ)) ht
      push_cast at hc
      rw [hc]
      ring
    have h30L : (((30 : ℕ) - L : ℕ) : ℤ) = 30 - (L : ℤ) := by omega
    have hEq : (30 : ℤ) - (L : ℤ) + ((L : ℤ) - 48) = -18 := by ring
    calc (t : ℚ) * ((10 : ℚ) ^ ((L : ℤ) - 48) * (10 : ℚ) ^ (j : ℕ))
        = ((t : ℚ) * (10 : ℚ) ^ (j : ℕ)) * (10 : ℚ) ^ ((L : ℤ) - 48) := by ring
    _ = ((a : ℚ) * (10 : ℚ) ^ ((30 : ℕ) - L)) * (10 : ℚ) ^ ((L : ℤ) - 48) := by rw [hcast]
    _ = (a : ℚ) * ((10 : ℚ) ^ (((30 : ℕ) - L : ℕ) : ℤ) * (10 : ℚ) ^ ((L : ℤ) - 48)) := by
          rw [zpow_natCast]
          ring
    _ = (a : ℚ) * (10 : ℚ) ^ ((((30 : ℕ) - L : ℕ) : ℤ) + ((L : ℤ) - 48)) := by
          rw [← zpow_add₀ (by norm_num : (10 : ℚ) ≠ 0)]
    _ = (a : ℚ) * (10 : ℚ) ^ (-18 : ℤ) := by
          rw [h30L, hEq]

unseal Rat.mul Rat.add Rat.sub Rat.inv in
lemma roundtrip_zero :
    (convert_woc_to_atto (PyNum.dec (convert_atto_to_woc (PyNum.int ((0 : ℕ) : Int))))).toRat
      = ((0 : ℕ) : ℚ) := by
  decide

/-- Claim C4 (amended): for every non-negative integer a below 10^28,
convert_woc_to_atto (convert_atto_to_woc a) equals a exactly.  (The
default decimal context carries 28 significant digits, so the division
step rounds away low-order digits of integers with more than 28
significant digits; see the counterexample at 10^28 + 1.) -/
theorem claim_C4_roundtrip (a : ℕ) (h : a < 10 ^ 28) :
    (convert_woc_to_atto (PyNum.dec (convert_atto_to_woc (PyNum.int (a : Int))))).toRat
      = (a : ℚ) := by
  rcases Nat.eq_zero_or_pos a with h0 | hpos
  · subst h0
    exact roundtrip_zero
  · obtain ⟨c', e', hQ, hlt, hval⟩ := convert_atto_spec a hpos h
    rw [hQ]
    simp only [convert_woc_to_atto, mulDec, conversion_unit_eq]
    show (fixDec ⟨false, c' * 10 ^ 18, e' + 0⟩).toRat = (a : ℚ)
    have hbound : c' * 10 ^ 18 < 10 ^ 46 := by
      have h46 : (10 : ℕ) ^ 46 = 10 ^ 28 * 10 ^ 18 := by norm_num
      rw [h46]
      exact (mul_lt_mul_right (pow_pos (by norm_num) 18)).mpr hlt
    rw [fixDec_toRat_of_dvd false (c' * 10 ^ 18) (e' + 0) hbound ⟨c', mul_comm c' (10 ^ 18)⟩]
    simp only [PyDec.toRat, add_zero]
    rw [if_neg (by simp)]
    rw [one_mul, Nat.cast_mul, Nat.cast_pow, Nat.cast_ofNat]
    have hsw : (c' : ℚ) * (10 : ℚ) ^ (18 : ℕ) * (10 : ℚ) ^ e'
        = ((c' : ℚ) * (10 : ℚ) ^ e') * (10 : ℚ) ^ (18 : ℕ) := by ring
    rw [hsw, hval, mul_assoc, ← zpow_natCast (10 : ℚ) 18,
      ← zpow_add₀ (by norm_num : (10 : ℚ) ≠ 0)]
    norm_num

unseal Rat.mul Rat.add Rat.sub Rat.inv in
/-- Claim C4, counterexample: the round-trip law as stated fails at the
non-negative integer 10^28 + 1: the quotient needs 29 significant
digits, the default context rounds it to 28, and the product comes back
as 10^28. -/
theorem claim_C4_counterexample :
    ¬ ((convert_woc_to_atto (PyNum.dec (convert_atto_to_woc
          (PyNum.int ((10 ^ 28 + 1 : ℕ) : Int))))).toRat
        = ((10 ^ 28 + 1 : ℕ) : ℚ)) := by
  decide

/-- Claim C4, witness: the round-trip theorem applied at the concrete
input 123456. -/
theorem claim_C4_roundtrip_witness :
    ((123456 : ℕ) < 10 ^ 28) ∧
      (convert_woc_to_atto (PyNum.dec (convert_atto_to_woc
          (PyNum.int ((123456 : ℕ) : Int))))).toRat = ((123456 : ℕ) : ℚ) :=
  ⟨by decide, claim_C4_roundtrip 123456 (by decide)⟩

unseal Rat.mul Rat.add Rat.sub Rat.inv in
/-- Claim C7: convert_atto_to_woc truncates a binary floating-point
input to an integer before exact decimal division by 10^18:
convert_atto_to_woc(10^18) is exactly 1, and convert_atto_to_woc of the
float nearest to 10^18 + 0.6 (which is exactly 10^18, and is truncated
to the integer 10^18) is also exactly 1. -/
theorem claim_C7_atto_division_truncates :
    (convert_atto_to_woc (PyNum.int (10 ^ 18))).toRat = 1 ∧
      (convert_atto_to_woc (PyNum.float (floatRound ((10 : ℚ) ^ (18 : ℕ) + 3 / 5)))).toRat = 1 := by
  constructor <;> decide

unseal Rat.mul Rat.add Rat.sub Rat.inv in
/-- Claim C8: convert_woc_to_atto renders a float input through its
shortest decimal representation before exact decimal multiplication by
10^18: on the float nearest to 10^-18 it yields exactly 1, and on the
float 1.5 it yields exactly 1.5 * 10^18, with no binary rounding
artifact. -/
theorem claim_C8_woc_multiplication_via_repr :
    (convert_woc_to_atto (PyNum.float (floatRound ((10 : ℚ) ^ (-18 : ℤ))))).toRat = 1 ∧
      (convert_woc_to_atto (PyNum.float (floatRound (3 / 2)))).toRat = (3 / 2) * 10 ^ 18 := by
  constructor <;> decide

lemma send_and_confirm_eq_loop (rpc : RpcEnv) (times : ℕ → ℚ) (fuel : ℕ)
    (signed_tx tx_hash : Json) (endpoint : String) (timeout : ℚ)
    (h : send_raw_transaction (rpc 0) signed_tx endpoint DEFAULT_TIMEOUT = Except.ok tx_hash) :
    send_and_confirm_raw_transaction rpc times fuel signed_tx endpoint timeout =
      confirmTxLoopAux rpc times tx_hash endpoint timeout (times 0) 0 fuel := by
  simp only [send_and_confirm_raw_transaction, h]

lemma staking_send_and_confirm_eq_loop (rpc : RpcEnv) (times : ℕ → ℚ) (fuel : ℕ)
    (signed_tx tx_hash : Json) (endpoint : String) (timeout : ℚ)
    (h : send_raw_staking_transaction (rpc 0) signed_tx endpoint DEFAULT_TIMEOUT = Except.ok tx_hash) :
    send_and_confirm_raw_staking_transaction rpc times fuel signed_tx endpoint timeout =
      confirmStakingLoopAux rpc times tx_hash endpoint timeout (times 0) 0 fuel := by
  simp only [send_and_confirm_raw_staking_transaction, h]

lemma confirmTxLoopAux_skip (rpc : RpcEnv) (times : ℕ → ℚ) (tx_hash : Json)
    (endpoint : String) (timeout start_time : ℚ) :
    ∀ (n k fuel : ℕ), n ≤ fuel →
      (∀ i, i < n → times (k + i + 1) - start_time ≤ timeout) →
      (∀ i, i < n →
        pendingPoll (get_transaction_by_hash (rpc (k + i + 1)) tx_hash endpoint DEFAULT_TIMEOUT)) →
      confirmTxLoopAux rpc times tx_hash endpoint timeout start_time k fuel =
        confirmTxLoopAux rpc times tx_hash endpoint timeout start_time (k + n) (fuel - n) := by
  intro n
  induction n with
  | zero => intro k fuel _ _ _; simp
  | succ n ih =>
    intro k fuel hf hchk hpend
    cases fuel with
    | zero => omega
    | succ f =>
      have hc : times (k + 1) - start_time ≤ timeout := by
        have h0 := hchk 0 (by omega)
        simpa using h0
      have hp := hpend 0 (by omega)
      rw [show k + 0 + 1 = k + 1 by omega] at hp
      have hchk' : ∀ i, i < n → times (k + 1 + i + 1) - start_time ≤ timeout := by
        intro i hi
        have h1 := hchk (i + 1) (by omega)
        rw [show k + (i + 1) + 1 = k + 1 + i + 1 by omega] at h1
        exact h1
      have hpend' : ∀ i, i < n →
          pendingPoll (get_transaction_by_hash (rpc (k + 1 + i + 1)) tx_hash endpoint DEFAULT_TIMEOUT) := by
        intro i hi
        have h1 := hpend (i + 1) (by omega)
        rw [show k + (i + 1) + 1 = k + 1 + i + 1 by omega] at h1
        exact h1
      have hrec := ih (k + 1) f (by omega) hchk' hpend'
      simp only [confirmTxLoopAux]
      rw [if_pos hc]
      rcases hp with hnull | ⟨fields, s, hobj, hbh, hded⟩
      · simp only [hnull]
        rw [hrec]
        rw [show k + 1 + n = k + (n + 1) by omega, show f - n = f + 1 - (n + 1) by omega]
      · simp only [hobj, hbh]
        rw [if_neg (not_not_intro hded)]
        rw [hrec]
        rw [show k + 1 + n = k + (n + 1) by omega, show f - n = f + 1 - (n + 1) by omega]

/-- Claim C1: inside send_and_confirm_raw_transaction, every poll that
returns a non-null record is classified by its blockHash field
(defaulting to "0x00" when absent): when, after dropping the 0x prefix,
the set of remaining characters is exactly {'0'} the transaction is
pending and the loop continues with the next poll; otherwise the full
record is returned immediately.  In particular "0x" + 64 zeros is
pending and "0x" + 63 zeros + "1" is confirmed. -/
theorem claim_C1_poll_classification
    (rpc : RpcEnv) (times : ℕ → ℚ) (signed_tx tx_hash : Json) (endpoint : String)
    (timeout : ℚ) (fuel n : ℕ) (fields : List (String × Json)) (s : String)
    (hsend : send_raw_transaction (rpc 0) signed_tx endpoint DEFAULT_TIMEOUT = Except.ok tx_hash)
    (hfuel : n < fuel)
    (hchk : ∀ i, i ≤ n → times (i + 1) - times 0 ≤ timeout)
    (hpend : ∀ i, i < n →
      pendingPoll (get_transaction_by_hash (rpc (i + 1)) tx_hash endpoint DEFAULT_TIMEOUT))
    (hpoll : get_transaction_by_hash (rpc (n + 1)) tx_hash endpoint DEFAULT_TIMEOUT
      = Except.ok (Json.obj fields))
    (hbh : (List.lookup "blockHash" fields).getD (Json.str "0x00") = Json.str s) :
    (unique_chars (String.drop s 2) ≠ [ '0' ] →
        send_and_confirm_raw_transaction rpc times fuel signed_tx endpoint timeout =
          some (Except.ok (Json.obj fields))) ∧
    (unique_chars (String.drop s 2) = [ '0' ] →
        send_and_confirm_raw_transaction rpc times fuel signed_tx endpoint timeout =
          confirmTxLoopAux rpc times tx_hash endpoint timeout (times 0) (n + 1) (fuel - (n + 1))) ∧
    unique_chars (String.drop ("0x" ++ String.mk (List.replicate 64 '0')) 2) = [ '0' ] ∧
    unique_chars (String.drop (("0x" ++ String.mk (List.replicate 63 '0')) ++ "1") 2) ≠ [ '0' ] := by
  have hskip := confirmTxLoopAux_skip rpc times tx_hash endpoint timeout (times 0) n 0 fuel
    (by omega)
    (fun i hi => by simpa using hchk i (by omega))
    (fun i hi => by simpa using hpend i hi)
  have hbase := send_and_confirm_eq_loop rpc times fuel signed_tx tx_hash endpoint timeout hsend
  obtain ⟨m, hm⟩ : ∃ m, fuel - n = m + 1 := ⟨fuel - n - 1, by omega⟩
  refine ⟨?_, ?_, by decide, by decide⟩
  · intro hconf
    rw [hbase, hskip]
    simp only [Nat.zero_add]
    rw [hm]
    simp only [confirmTxLoopAux]
    rw [if_pos (by simpa using hchk n (le_refl n))]
    simp only [hpoll, hbh]
    rw [if_pos hconf]
  · intro hpending
    rw [hbase, hskip]
    simp only [Nat.zero_add]
    rw [hm]
    simp only [confirmTxLoopAux]
    rw [if_pos (by simpa using hchk n (le_refl n))]
    simp only [hpoll, hbh]
    rw [if_neg (not_not_intro hpending)]
    rw [show fuel - (n + 1) = m by omega]

/-- Claim C3: the confirmation loop polls only while the elapsed time
since the post-broadcast start reading is within the caller-supplied
timeout; when the while condition fails before any poll satisfies the
confirmation predicate, the call raises exactly
TxConfirmationTimedoutError. -/
theorem claim_C3_timeout_error
    (rpc : RpcEnv) (times : ℕ → ℚ) (signed_tx tx_hash : Json) (endpoint : String)
    (timeout : ℚ) (fuel n : ℕ)
    (hsend : send_raw_transaction (rpc 0) signed_tx endpoint DEFAULT_TIMEOUT = Except.ok tx_hash)
    (hfuel : n < fuel)
    (hchk : ∀ i, i < n → times (i + 1) - times 0 ≤ timeout)
    (hpend : ∀ i, i < n →
      pendingPoll (get_transaction_by_hash (rpc (i + 1)) tx_hash endpoint DEFAULT_TIMEOUT))
    (hstop : ¬ (times (n + 1) - times 0 ≤ timeout)) :
    send_and_confirm_raw_transaction rpc times fuel signed_tx endpoint timeout =
      some (Except.error
        (PywikiError.txConfirmationTimedout "Could not confirm transaction on-chain.")) := by
  have hskip := confirmTxLoopAux_skip rpc times tx_hash endpoint timeout (times 0) n 0 fuel
    (by omega)
    (fun i hi => by simpa using hchk i hi)
    (fun i hi => by simpa using hpend i hi)
  have hbase := send_and_confirm_eq_loop rpc times fuel signed_tx tx_hash endpoint timeout hsend
  obtain ⟨m, hm⟩ : ∃ m, fuel - n = m + 1 := ⟨fuel - n - 1, by omega⟩
  rw [hbase, hskip]
  simp only [Nat.zero_add]
  rw [hm]
  simp only [confirmTxLoopAux]
  rw [if_neg hstop]

unseal Rat.sub in
/-- Claim C1, witness: the classification theorem applied to a concrete
environment whose first poll returns a record with block hash 0x01. -/
theorem claim_C1_witness :
    send_and_confirm_raw_transaction rpcHashThenConfirmed timesZero 1
      (Json.str "0xsigned") "endpoint" 0 =
      some (Except.ok (Json.obj [("blockHash", Json.str "0x01")])) :=
  (claim_C1_poll_classification rpcHashThenConfirmed timesZero (Json.str "0xsigned")
    (Json.str "0xhash") "endpoint" 0 1 0 [("blockHash", Json.str "0x01")] "0x01"
    rfl (by decide)
    (fun i _ => by show (0 : ℚ) - 0 ≤ 0; decide)
    (fun i hi => absurd hi (by omega))
    rfl rfl).1 (by decide)

unseal Rat.sub in
/-- Claim C3, witness: the timeout theorem applied to a concrete
environment whose clock exceeds the timeout at the first while check. -/
theorem claim_C3_witness :
    send_and_confirm_raw_transaction rpcAllNull timesLinear 1 (Json.str "0xsigned") "endpoint" 0 =
      some (Except.error
        (PywikiError.txConfirmationTimedout "Could not confirm transaction on-chain.")) :=
  claim_C3_timeout_error rpcAllNull timesLinear (Json.str "0xsigned") Json.null "endpoint" 0 1 0
    rfl (by decide)
    (fun i hi => absurd hi (by omega))
    (fun i hi => absurd hi (by omega))
    (by decide)

/-- Claim C9: when a polled record's blockHash field is the bare string
"0x" (nothing remains after dropping the first two characters, so the
set of remaining characters is empty and differs from {'0'}), both
send_and_confirm_raw_transaction and
send_and_confirm_raw_staking_transaction classify the record as
confirmed and return it. -/
theorem claim_C9_bare_prefix_hash_confirms
    (rpc : RpcEnv) (times : ℕ → ℚ) (signed_tx : Json) (endpoint : String)
    (timeout : ℚ) (fuel : ℕ) (fields : List (String × Json))
    (hfuel : 1 ≤ fuel)
    (hchk : times 1 - times 0 ≤ timeout)
    (hbh : (List.lookup "blockHash" fields).getD (Json.str "0x00") = Json.str "0x") :
    (∀ tx_hash,
      send_raw_transaction (rpc 0) signed_tx endpoint DEFAULT_TIMEOUT = Except.ok tx_hash →
      get_transaction_by_hash (rpc 1) tx_hash endpoint DEFAULT_TIMEOUT
          = Except.ok (Json.obj fields) →
      send_and_confirm_raw_transaction rpc times fuel signed_tx endpoint timeout =
        some (Except.ok (Json.obj fields))) ∧
    (∀ tx_hash,
      send_raw_staking_transaction (rpc 0) signed_tx endpoint DEFAULT_TIMEOUT = Except.ok tx_hash →
      get_staking_transaction_by_hash (rpc 1) tx_hash endpoint DEFAULT_TIMEOUT
          = Except.ok (Json.obj fields) →
      send_and_confirm_raw_staking_transaction rpc times fuel signed_tx endpoint timeout =
        some (Except.ok (Json.obj fields))) := by
  obtain ⟨m, hm⟩ : ∃ m, fuel = m + 1 := ⟨fuel - 1, by omega⟩
  subst hm
  constructor
  · intro tx_hash hsend hpoll
    rw [send_and_confirm_eq_loop rpc times (m + 1) signed_tx tx_hash endpoint timeout hsend]
    simp only [confirmTxLoopAux, Nat.zero_add]
    rw [if_pos hchk]
    simp only [hpoll, hbh]
    rw [if_pos (by decide)]
  · intro tx_hash hsend hpoll
    rw [staking_send_and_confirm_eq_loop rpc times (m + 1) signed_tx tx_hash endpoint timeout hsend]
    simp only [confirmStakingLoopAux, Nat.zero_add]
    rw [if_pos hchk]
    simp only [hpoll, hbh]
    rw [if_pos (by decide)]

unseal Rat.sub in
/-- Claim C9, witness: both confirmation functions applied to a
concrete environment whose poll returns a record with block hash
"0x". -/
theorem claim_C9_witness :
    send_and_confirm_raw_transaction rpcHashThenBare timesZero 1
        (Json.str "0xsigned") "endpoint" 0 =
      some (Except.ok (Json.obj [("blockHash", Json.str "0x")])) ∧
    send_and_confirm_raw_staking_transaction rpcHashThenBare timesZero 1
        (Json.str "0xsigned") "endpoint" 0 =
      some (Except.ok (Json.obj [("blockHash", Json.str "0x")])) :=
  ⟨(claim_C9_bare_prefix_hash_confirms rpcHashThenBare timesZero (Json.str "0xsigned")
      "endpoint" 0 1 [("blockHash", Json.str "0x")] (by decide)
      (by show (0 : ℚ) - 0 ≤ 0; decide) rfl).1 (Json.str "0xhash") rfl rfl,
   (claim_C9_bare_prefix_hash_confirms rpcHashThenBare timesZero (Json.str "0xsigned")
      "endpoint" 0 1 [("blockHash", Json.str "0x")] (by decide)
      (by show (0 : ℚ) - 0 ≤ 0; decide) rfl).2 (Json.str "0xhash") rfl rfl⟩

lemma loops_agree (rpc rpc' : RpcEnv) (times : ℕ → ℚ) (tx_hash : Json)
    (endpoint : String) (timeout start_time : ℚ)
    (hpoll : ∀ k p e t, rpc' (k + 1) "wikiv2_getStakingTransactionByHash" p e t
        = rpc (k + 1) "wikiv2_getTransactionByHash" p e t) :
    ∀ fuel k,
      Option.map (Except.mapError renameStakingMethods)
        (confirmStakingLoopAux rpc' times tx_hash endpoint timeout start_time k fuel) =
      confirmTxLoopAux rpc times tx_hash endpoint timeout start_time k fuel := by
  intro fuel
  induction fuel with
  | zero =>
    intro k
    simp [confirmStakingLoopAux, confirmTxLoopAux]
  | succ f ih =>
    intro k
    have hag : Except.mapError renameStakingMethods
        (get_staking_transaction_by_hash (rpc' (k + 1)) tx_hash endpoint DEFAULT_TIMEOUT)
        = get_transaction_by_hash (rpc (k + 1)) tx_hash endpoint DEFAULT_TIMEOUT := by
      simp only [get_staking_transaction_by_hash, get_transaction_by_hash, hpoll]
      cases List.lookup "result"
          (rpc (k + 1) "wikiv2_getTransactionByHash" [tx_hash] endpoint DEFAULT_TIMEOUT) with
      | none => simp [Except.mapError, renameStakingMethods]
      | some v => simp [Except.mapError]
    simp only [confirmStakingLoopAux, confirmTxLoopAux]
    by_cases hc : times (k + 1) - start_time ≤ timeout
    · rw [if_pos hc, if_pos hc]
      cases hg : get_staking_transaction_by_hash (rpc' (k + 1)) tx_hash endpoint DEFAULT_TIMEOUT with
      | error e =>
        rw [hg] at hag
        simp only [Except.mapError] at hag
        rw [← hag]
        simp [Except.mapError]
      | ok v =>
        rw [hg] at hag
        simp only [Except.mapError] at hag
        rw [← hag]
        cases v with
        | null => simpa using ih (k + 1)
        | obj fields =>
          cases hbh : (List.lookup "blockHash" fields).getD (Json.str "0x00") with
          | str s =>
            by_cases hded : unique_chars (String.drop s 2) = [ '0' ]
            · simp only [hbh, if_neg (not_not_intro hded)]
              simpa using ih (k + 1)
            · simp only [hbh, if_pos hded]
              simp [Except.mapError]
          | null => simp [hbh, Except.mapError, renameStakingMethods]
          | bool b => simp [hbh, Except.mapError, renameStakingMethods]
          | num n => simp [hbh, Except.mapError, renameStakingMethods]
          | arr xs => simp [hbh, Except.mapError, renameStakingMethods]
          | obj ys => simp [hbh, Except.mapError, renameStakingMethods]
        | bool b => simp [Except.mapError, renameStakingMethods]
        | num n => simp [Except.mapError, renameStakingMethods]
        | str s => simp [Except.mapError, renameStakingMethods]
        | arr xs => simp [Except.mapError, renameStakingMethods]
    · rw [if_neg hc, if_neg hc]
      simp [renameStakingMethods, Except.mapError]

/-- Claim C5: send_and_confirm_raw_staking_transaction runs the
identical submission-and-confirmation protocol as
send_and_confirm_raw_transaction, differing only in using the staking
submission and staking lookup RPC methods: whenever the environment
answers those staking methods exactly as it answers the plain methods,
the two functions produce the same outcome (with error payloads naming
the corresponding staking method). -/
theorem claim_C5_staking_protocol_identical
    (rpc rpc' : RpcEnv) (times : ℕ → ℚ) (signed_tx : Json) (endpoint : String)
    (timeout : ℚ) (fuel : ℕ)
    (hsend : ∀ p e t, rpc' 0 "wikiv2_sendRawStakingTransaction" p e t
        = rpc 0 "wikiv2_sendRawTransaction" p e t)
    (hpoll : ∀ k p e t, rpc' (k + 1) "wikiv2_getStakingTransactionByHash" p e t
        = rpc (k + 1) "wikiv2_getTransactionByHash" p e t) :
    Option.map (Except.mapError renameStakingMethods)
      (send_and_confirm_raw_staking_transaction rpc' times fuel signed_tx endpoint timeout) =
    send_and_confirm_raw_transaction rpc times fuel signed_tx endpoint timeout := by
  simp only [send_and_confirm_raw_staking_transaction, send_and_confirm_raw_transaction,
    send_raw_staking_transaction, send_raw_transaction, hsend]
  cases hrs : List.lookup "result"
      (rpc 0 "wikiv2_sendRawTransaction" [signed_tx] endpoint DEFAULT_TIMEOUT) with
  | none => simp [renameStakingMethods, Except.mapError]
  | some tx_hash =>
    simpa using loops_agree rpc rpc' times tx_hash endpoint timeout (times 0) hpoll fuel 0

/-- Claim C5, witness: the equivalence applied to a concrete
method-blind environment. -/
theorem claim_C5_witness :
    Option.map (Except.mapError renameStakingMethods)
      (send_and_confirm_raw_staking_transaction rpcHashThenConfirmed timesZero 1
        (Json.str "0xsigned") "endpoint" 0) =
    send_and_confirm_raw_transaction rpcHashThenConfirmed timesZero 1
      (Json.str "0xsigned") "endpoint" 0 :=
  claim_C5_staking_protocol_identical rpcHashThenConfirmed rpcHashThenConfirmed timesZero
    (Json.str "0xsigned") "endpoint" 0 1 (fun _ _ _ => rfl) (fun _ _ _ _ => rfl)

lemma confirmTxLoopAux_timeout_agnostic (rpc rpc' : RpcEnv) (times : ℕ → ℚ)
    (tx_hash : Json) (endpoint : String) (timeout start_time : ℚ)
    (hagree : ∀ k m p, rpc k m p endpoint DEFAULT_TIMEOUT = rpc' k m p endpoint DEFAULT_TIMEOUT) :
    ∀ fuel k,
      confirmTxLoopAux rpc times tx_hash endpoint timeout start_time k fuel =
        confirmTxLoopAux rpc' times tx_hash endpoint timeout start_time k fuel := by
  intro fuel
  induction fuel with
  | zero => intro k; rfl
  | succ f ih =>
    intro k
    simp only [confirmTxLoopAux]
    by_cases hc : times (k + 1) - start_time ≤ timeout
    · rw [if_pos hc, if_pos hc]
      have hg : get_transaction_by_hash (rpc (k + 1)) tx_hash endpoint DEFAULT_TIMEOUT
          = get_transaction_by_hash (rpc' (k + 1)) tx_hash endpoint DEFAULT_TIMEOUT := by
        simp only [get_transaction_by_hash, hagree]
      rw [hg]
      cases hv : get_transaction_by_hash (rpc' (k + 1)) tx_hash endpoint DEFAULT_TIMEOUT with
      | error e => rfl
      | ok v =>
        cases v with
        | null => simpa using ih (k + 1)
        | obj fields =>
          cases hbh : (List.lookup "blockHash" fields).getD (Json.str "0x00") with
          | str s =>
            by_cases hded : unique_chars (String.drop s 2) = [ '0' ]
            · simp only [hbh, if_neg (not_not_intro hded)]
              simpa using ih (k + 1)
            · simp only [hbh, if_pos hded]
          | null => simp [hbh]
          | bool b => simp [hbh]
          | num n => simp [hbh]
          | arr xs => simp [hbh]
          | obj ys => simp [hbh]
        | bool b => rfl
        | num n => rfl
        | str s => rfl
        | arr xs => rfl
    · rw [if_neg hc, if_neg hc]

lemma confirmStakingLoopAux_timeout_agnostic (rpc rpc' : RpcEnv) (times : ℕ → ℚ)
    (tx_hash : Json) (endpoint : String) (timeout start_time : ℚ)
    (hagree : ∀ k m p, rpc k m p endpoint DEFAULT_TIMEOUT = rpc' k m p endpoint DEFAULT_TIMEOUT) :
    ∀ fuel k,
      confirmStakingLoopAux rpc times tx_hash endpoint timeout start_time k fuel =
        confirmStakingLoopAux rpc' times tx_hash endpoint timeout start_time k fuel := by
  intro fuel
  induction fuel with
  | zero => intro k; rfl
  | succ f ih =>
    intro k
    simp only [confirmStakingLoopAux]
    by_cases hc : times (k + 1) - start_time ≤ timeout
    · rw [if_pos hc, if_pos hc]
      have hg : get_staking_transaction_by_hash (rpc (k + 1)) tx_hash endpoint DEFAULT_TIMEOUT
          = get_staking_transaction_by_hash (rpc' (k + 1)) tx_hash endpoint DEFAULT_TIMEOUT := by
        simp only [get_staking_transaction_by_hash, hagree]
      rw [hg]
      cases hv : get_staking_transaction_by_hash (rpc' (k + 1)) tx_hash endpoint DEFAULT_TIMEOUT with
      | error e => rfl
      | ok v =>
        cases v with
        | null => simpa using ih (k + 1)
        | obj fields =>
          cases hbh : (List.lookup "blockHash" fields).getD (Json.str "0x00") with
          | str s =>
            by_cases hded : unique_chars (String.drop s 2) = [ '0' ]
            · simp only [hbh, if_neg (not_not_intro hded)]
              simpa using ih (k + 1)
            · simp only [hbh, if_pos hded]
          | null => simp [hbh]
          | bool b => simp [hbh]
          | num n => simp [hbh]
          | arr xs => simp [hbh]
          | obj ys => simp [hbh]
        | bool b => rfl
        | num n => rfl
        | str s => rfl
        | arr xs => rfl
    · rw [if_neg hc, if_neg hc]

/-- Claim C10: in both confirmation functions the caller-supplied
timeout serves only as the polling deadline: every internal RPC call
(the raw submission and each per-poll lookup) is issued at the caller's
endpoint with the module default per-request timeout, so the outcome
only depends on the environment's behaviour at DEFAULT_TIMEOUT,
regardless of the caller's timeout argument. -/
theorem claim_C10_internal_calls_use_default_timeout
    (rpc rpc' : RpcEnv) (times : ℕ → ℚ) (signed_tx : Json) (endpoint : String)
    (timeout : ℚ) (fuel : ℕ)
    (hagree : ∀ k m p, rpc k m p endpoint DEFAULT_TIMEOUT = rpc' k m p endpoint DEFAULT_TIMEOUT) :
    send_and_confirm_raw_transaction rpc times fuel signed_tx endpoint timeout =
      send_and_confirm_raw_transaction rpc' times fuel signed_tx endpoint timeout ∧
    send_and_confirm_raw_staking_transaction rpc times fuel signed_tx endpoint timeout =
      send_and_confirm_raw_staking_transaction rpc' times fuel signed_tx endpoint timeout := by
  constructor
  · simp only [send_and_confirm_raw_transaction, send_raw_transaction, hagree]
    cases List.lookup "result"
        (rpc' 0 "wikiv2_sendRawTransaction" [signed_tx] endpoint DEFAULT_TIMEOUT) with
    | none => rfl
    | some tx_hash =>
      simpa using confirmTxLoopAux_timeout_agnostic rpc rpc' times tx_hash endpoint
        timeout (times 0) hagree fuel 0
  · simp only [send_and_confirm_raw_staking_transaction, send_raw_staking_transaction, hagree]
    cases List.lookup "result"
        (rpc' 0 "wikiv2_sendRawStakingTransaction" [signed_tx] endpoint DEFAULT_TIMEOUT) with
    | none => rfl
    | some tx_hash =>
      simpa using confirmStakingLoopAux_timeout_agnostic rpc rpc' times tx_hash endpoint
        timeout (times 0) hagree fuel 0

/-- Claim C10, witness: the invariance applied to a concrete pair of
environments that agree only at the module default timeout. -/
theorem claim_C10_witness :
    (send_and_confirm_raw_transaction rpcAllNull timesZero 1 (Json.str "0xsigned") "endpoint" 0 =
      send_and_confirm_raw_transaction rpcOffDefault timesZero 1 (Json.str "0xsigned") "endpoint" 0) ∧
    (send_and_confirm_raw_staking_transaction rpcAllNull timesZero 1 (Json.str "0xsigned") "endpoint" 0 =
      send_and_confirm_raw_staking_transaction rpcOffDefault timesZero 1 (Json.str "0xsigned") "endpoint" 0) :=
  claim_C10_internal_calls_use_default_timeout rpcAllNull rpcOffDefault timesZero
    (Json.str "0xsigned") "endpoint" 0 1
    (fun _ _ _ => by simp [rpcAllNull, rpcOffDefault])

/-- Claim C2: for the read-only facade operations (here
get_transaction_by_hash and get_pending_transactions): when the decoded
RPC response contains a "result" key, its value is returned to the
caller unchanged, null included; when the response lacks a "result" key
entirely, the operation raises InvalidRPCReplyError naming the method
and endpoint. -/
theorem claim_C2_result_passthrough
    (rpc : RpcCall) (tx_hash : Json) (endpoint : String) (timeout : ℚ) :
    (∀ v, List.lookup "result" (rpc "wikiv2_getTransactionByHash" [tx_hash] endpoint timeout)
        = some v →
      get_transaction_by_hash rpc tx_hash endpoint timeout = Except.ok v) ∧
    (List.lookup "result" (rpc "wikiv2_getTransactionByHash" [tx_hash] endpoint timeout) = none →
      get_transaction_by_hash rpc tx_hash endpoint timeout =
        Except.error (PywikiError.invalidRPCReply "wikiv2_getTransactionByHash" endpoint)) ∧
    (∀ v, List.lookup "result" (rpc "wikiv2_pendingTransactions" [] endpoint timeout) = some v →
      get_pending_transactions rpc endpoint timeout = Except.ok v) ∧
    (List.lookup "result" (rpc "wikiv2_pendingTransactions" [] endpoint timeout) = none →
      get_pending_transactions rpc endpoint timeout =
        Except.error (PywikiError.invalidRPCReply "wikiv2_pendingTransactions" endpoint)) := by
  refine ⟨?_, ?_, ?_, ?_⟩
  · intro v hv
    simp only [get_transaction_by_hash, hv]
  · intro hv
    simp only [get_transaction_by_hash, hv]
  · intro v hv
    simp only [get_pending_transactions, hv]
  · intro hv
    simp only [get_pending_transactions, hv]

/-- Claim C2, witness: the pass-through theorem applied to one response
carrying a null result (returned unchanged) and one response lacking
the result key (raising the protocol-mismatch error). -/
theorem claim_C2_witness :
    get_transaction_by_hash (rpcAllNull 0) (Json.str "0xhash") "endpoint" 1 =
        Except.ok Json.null ∧
    get_transaction_by_hash (rpcNoResult 0) (Json.str "0xhash") "endpoint" 1 =
        Except.error (PywikiError.invalidRPCReply "wikiv2_getTransactionByHash" "endpoint") :=
  ⟨(claim_C2_result_passthrough (rpcAllNull 0) (Json.str "0xhash") "endpoint" 1).1
      Json.null rfl,
   (claim_C2_result_passthrough (rpcNoResult 0) (Json.str "0xhash") "endpoint" 1).2.1 rfl⟩

/-- Claim C6: an InvalidValidatorError with code c in 1..5 and message
msg renders exactly as "[Errno c] <fixed description>: <msg>", the five
fixed descriptions being the ones carried by the errors table of
pywiki/exceptions.py for invalid address, uninitialized field, invalid
field input, blockchain-check error and import failure
respectively. -/
theorem claim_C6_validator_error_rendering (msg : String) :
    invalidValidatorStr 1 msg = some ("[Errno 1] Invalid WOC address: " ++ msg) ∧
    invalidValidatorStr 2 msg = some ("[Errno 2] Field not initialized: " ++ msg) ∧
    invalidValidatorStr 3 msg = some ("[Errno 3] Invalid field input: " ++ msg) ∧
    invalidValidatorStr 4 msg = some ("[Errno 4] Error checking blockchain: " ++ msg) ∧
    invalidValidatorStr 5 msg
      = some ("[Errno 5] Unable to import validator information from blockchain: " ++ msg) := by
  refine ⟨?_, ?_, ?_, ?_, ?_⟩ <;> rfl

/-- Claim C6, witness: the rendering theorem applied at a concrete
message. -/
theorem claim_C6_witness :
    invalidValidatorStr 1 "bad address"
      = some ("[Errno 1] Invalid WOC address: " ++ "bad address") :=
  (claim_C6_validator_error_rendering "bad address").1
